import Mathlib

/-!
Verification of the candle-series acquisition and normalization pipeline of the
Live_crypto_charts repository (src/Livechart.py and src/app.py), shallowly
embedded in Lean 4.

Numeric values carried by candles are modelled as rationals (the Python code
works with floats; no claim here depends on float rounding).  Missing values
(pandas NaN / NaT) are modelled as `none` of an `Option` type, and every
comparison against a missing value is `false`, matching IEEE/pandas NaN
comparison semantics used by the code.
-/

namespace LiveChart

/-- Model of Python's builtin `int(str)`: optional surrounding spaces, an
optional single sign, then a nonempty run of decimal digits.  Returns `none`
when `int` would raise `ValueError` (underscore separators and non-space
whitespace are outside the modelled scope). -/
def digitsToNat (cs : List Char) : Option Nat :=
  if cs ≠ [] ∧ cs.all Char.isDigit then
    some (cs.foldl (fun a c => 10 * a + (c.toNat - 48)) 0)
  else none

/-- Python `int()` on a string, producing an integer or `none` on `ValueError`. -/
def pyInt (s : String) : Option Int :=
  let cs := ((s.data.dropWhile (· = ' ')).reverse.dropWhile (· = ' ')).reverse
  match cs with
  | '-' :: rest => (digitsToNat rest).map (fun n => -(n : Int))
  | '+' :: rest => (digitsToNat rest).map (fun n => (n : Int))
  | _ => (digitsToNat cs).map (fun n => (n : Int))

/-- Python `s[:-1]` for a string. -/
def strDropLast (s : String) : String := ⟨s.data.dropLast⟩

/-- `LiveChart.get_timeframe_seconds` (src/Livechart.py lines 163-174) and the
identical `get_timeframe_seconds` of src/app.py (lines 79-89): take the last
character of the timeframe as the unit and `int()` of the rest as the value;
`m`/`h`/`d` scale by 60/3600/86400, any other unit falls back to 60.  `none`
models the exceptions Python raises on an empty string (`IndexError` on
`timeframe[-1]`) or a malformed numeric prefix (`ValueError` in `int`). -/
def get_timeframe_seconds (tf : String) : Option Int :=
  match tf.data.getLast? with
  | none => none
  | some unit =>
    match pyInt (strDropLast tf) with
    | none => none
    | some v =>
      if unit = 'm' then some (v * 60)
      else if unit = 'h' then some (v * 3600)
      else if unit = 'd' then some (v * 86400)
      else some 60

/-- C2: `timeframe_seconds` maps "5m" to 300, "2h" to 7200, "1d" to 86400, and
every input whose unit character is outside {m,h,d} but whose numeric prefix
parses yields the lenient fallback 60 instead of an error. -/
theorem c2_timeframe_seconds :
    get_timeframe_seconds "5m" = some 300 ∧
    get_timeframe_seconds "2h" = some 7200 ∧
    get_timeframe_seconds "1d" = some 86400 ∧
    ∀ (s : String) (u : Char) (v : Int),
      s.data.getLast? = some u → u ≠ 'm' → u ≠ 'h' → u ≠ 'd' →
      pyInt (strDropLast s) = some v →
      get_timeframe_seconds s = some 60 := by
  refine ⟨by decide, by decide, by decide, ?_⟩
  intro s u v hu hm hh hd hv
  simp only [get_timeframe_seconds, hu, hv]
  simp [hm, hh, hd]

/-- C2 witness: the lenient-fallback clause evaluated on the concrete input
"3x", whose numeric prefix parses to 3 and whose unit is unrecognized. -/
theorem c2_timeframe_seconds_witness :
    ("3x".data.getLast? = some 'x' ∧ pyInt (strDropLast "3x") = some 3) ∧
    get_timeframe_seconds "3x" = some 60 :=
  ⟨⟨by decide, by decide⟩,
    c2_timeframe_seconds.2.2.2 "3x" 'x' 3 (by decide) (by decide) (by decide)
      (by decide) (by decide)⟩

/-- A raw JSON value appearing in a candle row: either something
`pd.to_numeric` converts to a number, or a non-numeric string (which
`errors="coerce"` turns into NaN). -/
inductive PyVal where
  | num (q : ℚ)
  | str (s : String)
deriving DecidableEq

/-- One raw candle row as returned inside the payload's `result` list: a dict
that may or may not carry each of the six fields the code requires.  Extra keys
are dropped by the column selection `df[["open",...,"volume"]]` and never
affect the required-column check, so they are not modelled. -/
structure RawRow where
  time : Option PyVal
  opn : Option PyVal
  high : Option PyVal
  low : Option PyVal
  close : Option PyVal
  vol : Option PyVal
deriving DecidableEq

/-- The parsed JSON body when it is a truthy dict: it may or may not carry the
`result` key, whose value is the list of raw candle rows. -/
structure ApiDict where
  result : Option (List RawRow)
deriving DecidableEq

/-- Outcome of `response.json()`: either the call raises (invalid JSON), or it
yields data that is falsy (`None`, empty dict — the `if not data` test) or a
truthy dict. -/
inductive JsonOutcome where
  | err
  | val (d : Option ApiDict)
deriving DecidableEq

/-- The transport's response as the fetcher sees it: the `ok` flag and the
JSON body.  `status_code` and `text` are only printed and are not modelled. -/
structure Response where
  ok : Bool
  data : JsonOutcome
deriving DecidableEq

/-- The query the fetcher sends to the candle-history endpoint
(src/Livechart.py lines 108-113). -/
structure Query where
  symbol : String
  resolution : String
  start : Int
  end_ : Int
deriving DecidableEq

/-- One normalized candle row: the timestamp index entry (none models NaT) and
the five OHLCV values after `pd.to_numeric(errors="coerce")` (none models NaN). -/
structure CRow where
  ts : Option ℚ
  o : Option ℚ
  h : Option ℚ
  l : Option ℚ
  c : Option ℚ
  v : Option ℚ
deriving DecidableEq

/-- A normalized candle series: the rows of the DataFrame in index order. -/
abbrev CandleSeries := List CRow

/-- The failure taxonomy of the fetcher (spec section 7): the distinct early
return branches of `fetch_candles`.  `exception` covers the blanket
`except Exception` branch. -/
inductive FetchErr where
  | transport
  | dataUnavailable
  | schema
  | exception
deriving DecidableEq

/-- `pd.to_numeric(errors="coerce")` on one cell: numbers pass through, a
non-numeric string or a missing cell becomes NaN (`none`). -/
def toNumeric : Option PyVal → Option ℚ
  | some (.num q) => some q
  | some (.str _) => none
  | none => none

/-- A field is a column of `pd.DataFrame(rows)` iff some row carries it. -/
def hasColumn (rows : List RawRow) (sel : RawRow → Option PyVal) : Bool :=
  rows.any (fun r => (sel r).isSome)

/-- The required-column check of src/Livechart.py lines 137-138: all of
time, open, high, low, close, volume occur among the rows' keys. -/
def requiredPresent (rows : List RawRow) : Bool :=
  hasColumn rows RawRow.time && hasColumn rows RawRow.opn &&
  hasColumn rows RawRow.high && hasColumn rows RawRow.low &&
  hasColumn rows RawRow.close && hasColumn rows RawRow.vol

/-- A row whose `time` cell is a non-numeric string makes
`pd.to_datetime(df["time"], unit="s")` raise, which the blanket handler turns
into an absent result. -/
def badTime (r : RawRow) : Bool :=
  match r.time with
  | some (.str _) => true
  | _ => false

/-- The timestamp index entry produced for one row by
`pd.to_datetime(df["time"], unit="s")`: a numeric time value becomes the
timestamp, a missing cell becomes NaT (`none`). -/
def timeKey (r : RawRow) : Option ℚ :=
  match r.time with
  | some (.num q) => some q
  | _ => none

/-- Order on index entries used by `df.sort_index()`: NaT sorts last
(pandas `na_position="last"`). -/
def tsLE : Option ℚ → Option ℚ → Prop
  | none, none => True
  | none, some _ => False
  | some _, none => True
  | some x, some y => x ≤ y

instance : DecidableRel tsLE := fun a b => by
  cases a <;> cases b <;> simp only [tsLE] <;> infer_instance

/-- Row order induced by the timestamp index. -/
def rowLE (r s : CRow) : Prop := tsLE r.ts s.ts

instance : DecidableRel rowLE := fun a b => by
  unfold rowLE; infer_instance

instance : IsTotal (Option ℚ) tsLE where
  total a b := by
    cases a <;> cases b <;> simp only [tsLE] <;> try tauto
    exact le_total _ _

instance : IsTrans (Option ℚ) tsLE where
  trans a b c := by
    cases a <;> cases b <;> cases c <;> simp only [tsLE] <;> try tauto
    exact le_trans

instance : IsTotal CRow rowLE where
  total a b := IsTotal.total (r := tsLE) a.ts b.ts

instance : IsTrans CRow rowLE where
  trans a b c := IsTrans.trans (r := tsLE) a.ts b.ts c.ts

/-- The reshape of src/Livechart.py lines 142-152: build the timestamp index,
select and coerce the five OHLCV columns, and sort by the index.
`sort_index` is modelled by a sort; its default `kind` leaves the relative
order of duplicate keys unspecified, and no theorem below depends on that
order (only sortedness and the multiset of rows are used). -/
def reshape (rows : List RawRow) : CandleSeries :=
  List.insertionSort rowLE
    (rows.map (fun r =>
      ⟨timeKey r, toNumeric r.opn, toNumeric r.high, toNumeric r.low,
        toNumeric r.close, toNumeric r.vol⟩))

/-- `LiveChart.fetch_candles` (src/Livechart.py lines 100-161) from the
transport's response onward, with the taxonomy of spec section 7 naming each
early-return branch.  Every `error` outcome corresponds to `return None` in
the source (each branch prints a diagnostic and returns None; the
`except Exception` branch also catches the `to_datetime` failure on a
non-numeric time cell). -/
def fetch_candles_E (resp : Response) : Except FetchErr CandleSeries :=
  if !resp.ok then .error .transport
  else
    match resp.data with
    | .err => .error .exception
    | .val none => .error .dataUnavailable
    | .val (some d) =>
      match d.result with
      | none => .error .dataUnavailable
      | some rows =>
        if !requiredPresent rows then .error .schema
        else if rows.any badTime then .error .exception
        else .ok (reshape rows)

/-- The request parameters computed by `fetch_candles` (src/Livechart.py lines
104-113): `end` is the current epoch time, `start` is derived through the
Timeframe Resolver.  `none` models the exception path when
`get_timeframe_seconds` raises before any request is sent. -/
def build_query (tf sym : String) (limit now : Int) : Option Query :=
  match get_timeframe_seconds tf with
  | none => none
  | some s => some ⟨sym, tf, now - limit * s, now⟩

/-- `LiveChart.fetch_candles` end to end against a transport collaborator:
build the query, perform the single request, validate and reshape.  All error
branches collapse to `none`, exactly as every branch of the source returns
`None`. -/
def fetch_candles (tf sym : String) (limit now : Int)
    (transport : Query → Response) : Option CandleSeries :=
  match build_query tf sym limit now with
  | none => none
  | some q => (fetch_candles_E (transport q)).toOption

/-- C8: for every fetch window, the start time passed to the transport equals
`end_time - candle_limit * timeframe_seconds(timeframe)`, and the end time is
the supplied current epoch time. -/
theorem c8_start_time (tf sym : String) (limit now s : Int)
    (hs : get_timeframe_seconds tf = some s) :
    (build_query tf sym limit now).map Query.start
      = (build_query tf sym limit now).map (fun q => q.end_ - limit * s) ∧
    (build_query tf sym limit now).map Query.end_ = some now := by
  simp [build_query, hs]

/-- C8 witness: the query built for timeframe "1m", limit 100, now 1000 has
start = 1000 - 100 * 60 and end = 1000. -/
theorem c8_start_time_witness :
    get_timeframe_seconds "1m" = some 60 ∧
    ((build_query "1m" "BTCUSD" 100 1000).map Query.start
        = (build_query "1m" "BTCUSD" 100 1000).map (fun q => q.end_ - 100 * 60) ∧
      (build_query "1m" "BTCUSD" 100 1000).map Query.end_ = some 1000) :=
  ⟨by decide, c8_start_time "1m" "BTCUSD" 100 1000 60 (by decide)⟩

/-- A fully populated raw row with numeric time `t` and all four prices and
the volume equal to `p` (fixture builder for concrete inputs). -/
def rowAt (t p : ℚ) : RawRow :=
  ⟨some (.num t), some (.num p), some (.num p), some (.num p), some (.num p),
    some (.num p)⟩

/-- A successful transport response whose payload holds two rows with the same
timestamp 1 (duplicate-timestamp fixture). -/
def respDup : Response :=
  ⟨true, .val (some ⟨some [rowAt 1 10, rowAt 1 20]⟩)⟩

/-- If the fetcher succeeds on a payload with rows `rows`, the series it
returns is exactly `reshape rows`. -/
theorem fetch_ok_reshape (resp : Response) (rows : List RawRow) (s : CandleSeries)
    (hd : resp.data = JsonOutcome.val (some ⟨some rows⟩))
    (hs : (fetch_candles_E resp).toOption = some s) :
    s = reshape rows := by
  obtain ⟨ok, data⟩ := resp
  dsimp only at hd
  subst hd
  cases ok with
  | false => simp [fetch_candles_E, Except.toOption] at hs
  | true =>
    cases hr : requiredPresent rows with
    | false => simp [fetch_candles_E, hr, Except.toOption] at hs
    | true =>
      cases hb : rows.any badTime with
      | false =>
        simp [fetch_candles_E, hr, hb, Except.toOption] at hs
        exact hs.symm
      | true => simp [fetch_candles_E, hr, hb, Except.toOption] at hs

/-- C1 counterexample: on a payload with two raw rows sharing timestamp 1, the
fetcher returns a series with two entries at that timestamp — not strictly
ascending and not one-entry-per-timestamp, so no last-write-wins
deduplication happens. -/
theorem c1_counterexample :
    (fetch_candles_E respDup).toOption.map (fun s => s.map CRow.ts)
        = some [some 1, some 1] ∧
    ((fetch_candles_E respDup).toOption.getD []).countP
        (fun r => decide (r.ts = some 1)) = 2 := by
  constructor <;> decide

/-- C1 amended: whenever the fetcher succeeds on a payload with raw rows
`rows`, the resulting series is sorted non-decreasing by timestamp, and its
timestamps are a permutation of the input rows' timestamps — every row is
kept, duplicates included, with no deduplication. -/
theorem c1_sorted_permutation (resp : Response) (rows : List RawRow)
    (s : CandleSeries)
    (hd : resp.data = JsonOutcome.val (some ⟨some rows⟩))
    (hs : (fetch_candles_E resp).toOption = some s) :
    List.Sorted tsLE (s.map CRow.ts) ∧ (s.map CRow.ts).Perm (rows.map timeKey) := by
  have hr : s = reshape rows := fetch_ok_reshape resp rows s hd hs
  subst hr
  constructor
  · have hsorted : List.Sorted rowLE (reshape rows) :=
      List.sorted_insertionSort rowLE _
    exact List.Pairwise.map CRow.ts (fun a b hab => hab) hsorted
  · have hperm := List.perm_insertionSort rowLE
      (rows.map (fun r =>
        (⟨timeKey r, toNumeric r.opn, toNumeric r.high, toNumeric r.low,
          toNumeric r.close, toNumeric r.vol⟩ : CRow)))
    have := hperm.map CRow.ts
    simpa [reshape, List.map_map, Function.comp] using this

/-- Out-of-order fixture rows: timestamps 2 then 1. -/
def rowsOrd : List RawRow := [rowAt 2 5, rowAt 1 7]

/-- A successful response carrying `rowsOrd`. -/
def respOrd : Response := ⟨true, .val (some ⟨some rowsOrd⟩)⟩

/-- The series the fetcher produces from `respOrd`: sorted ascending. -/
def sOrd : CandleSeries :=
  [⟨some 1, some 7, some 7, some 7, some 7, some 7⟩,
   ⟨some 2, some 5, some 5, some 5, some 5, some 5⟩]

/-- C1 amended witness: the sortedness/permutation theorem applied to the
concrete out-of-order fixture `respOrd`. -/
theorem c1_sorted_permutation_witness :
    (respOrd.data = JsonOutcome.val (some ⟨some rowsOrd⟩) ∧
      (fetch_candles_E respOrd).toOption = some sOrd) ∧
    (List.Sorted tsLE (sOrd.map CRow.ts) ∧
      (sOrd.map CRow.ts).Perm (rowsOrd.map timeKey)) :=
  ⟨⟨rfl, by decide⟩,
    c1_sorted_permutation respOrd rowsOrd sOrd rfl (by decide)⟩

/-- C3: a successful response whose tabular payload misses at least one of the
six required fields makes the fetcher take the SchemaError branch, and no
series is produced. -/
theorem c3_schema_error (resp : Response) (rows : List RawRow)
    (hok : resp.ok = true)
    (hd : resp.data = JsonOutcome.val (some ⟨some rows⟩))
    (hmiss : requiredPresent rows = false) :
    fetch_candles_E resp = Except.error FetchErr.schema ∧
    (fetch_candles_E resp).toOption = none := by
  have he : fetch_candles_E resp = Except.error FetchErr.schema := by
    simp [fetch_candles_E, hok, hd, hmiss]
  exact ⟨he, by rw [he]; rfl⟩

/-- A row carrying everything except the volume field. -/
def rowNoVol : RawRow :=
  ⟨some (.num 1), some (.num 2), some (.num 3), some (.num 1), some (.num 2),
    none⟩

/-- A successful response whose single row lacks the volume field. -/
def respNoVol : Response := ⟨true, .val (some ⟨some [rowNoVol]⟩)⟩

/-- C3 witness: the SchemaError theorem applied to the concrete payload whose
rows lack the volume field. -/
theorem c3_schema_error_witness :
    (respNoVol.ok = true ∧
      respNoVol.data = JsonOutcome.val (some ⟨some [rowNoVol]⟩) ∧
      requiredPresent [rowNoVol] = false) ∧
    (fetch_candles_E respNoVol = Except.error FetchErr.schema ∧
      (fetch_candles_E respNoVol).toOption = none) :=
  ⟨⟨rfl, rfl, by decide⟩,
    c3_schema_error respNoVol [rowNoVol] rfl rfl (by decide)⟩

/-- The failure modes of the fetcher: non-success transport status, a JSON
body that fails to parse, falsy data, a payload without the result key,
missing required columns, or a time cell that makes `to_datetime` raise. -/
def failCond (resp : Response) : Prop :=
  resp.ok = false ∨ resp.data = JsonOutcome.err ∨
  resp.data = JsonOutcome.val none ∨
  resp.data = JsonOutcome.val (some ⟨none⟩) ∨
  ∃ rows, resp.data = JsonOutcome.val (some ⟨some rows⟩) ∧
    (requiredPresent rows = false ∨ rows.any badTime = true)

/-- C4: on every failure mode the fetcher's result is absent — some error
branch is taken and no series (in particular no partial series) comes back;
a timeframe whose numeric prefix fails to parse also yields an absent result
before any request; and the result depends only on the single response the
transport gives to the one query built — the fetcher performs no retry. -/
theorem c4_failure_absent (resp : Response) (hf : failCond resp) :
    ((∃ e, fetch_candles_E resp = Except.error e) ∧
      (fetch_candles_E resp).toOption = none) ∧
    (∀ (tf sym : String) (lim now : Int),
      get_timeframe_seconds tf = none →
      ∀ t, fetch_candles tf sym lim now t = none) ∧
    (∀ (tf sym : String) (lim now : Int) (q : Query)
      (t t2 : Query → Response),
      build_query tf sym lim now = some q → t q = t2 q →
      fetch_candles tf sym lim now t = fetch_candles tf sym lim now t2) := by
  refine ⟨?_, ?_, ?_⟩
  · have main : ∃ e, fetch_candles_E resp = Except.error e := by
      cases hok : resp.ok with
      | false => exact ⟨.transport, by simp [fetch_candles_E, hok]⟩
      | true =>
        rcases hf with h | h | h | h | ⟨rows, hd, hcase⟩
        · rw [hok] at h; exact absurd h (by simp)
        · exact ⟨.exception, by simp [fetch_candles_E, hok, h]⟩
        · exact ⟨.dataUnavailable, by simp [fetch_candles_E, hok, h]⟩
        · exact ⟨.dataUnavailable, by simp [fetch_candles_E, hok, h]⟩
        · cases hr : requiredPresent rows with
          | false => exact ⟨.schema, by simp [fetch_candles_E, hok, hd, hr]⟩
          | true =>
            rcases hcase with hm | hb
            · rw [hr] at hm; exact absurd hm (by simp)
            · exact ⟨.exception, by simp [fetch_candles_E, hok, hd, hr, hb]⟩
    obtain ⟨e, he⟩ := main
    exact ⟨⟨e, he⟩, by rw [he]; rfl⟩
  · intro tf sym lim now hg t
    simp [fetch_candles, build_query, hg]
  · intro tf sym lim now q t t2 hq ht
    simp [fetch_candles, hq, ht]

/-- A transport response whose HTTP status is not a success. -/
def respFail : Response := ⟨false, .err⟩

/-- C4 witness: the failure-policy theorem applied to the concrete
non-success response `respFail`. -/
theorem c4_failure_absent_witness :
    failCond respFail ∧ (fetch_candles_E respFail).toOption = none :=
  ⟨Or.inl rfl, (c4_failure_absent respFail (Or.inl rfl)).1.2⟩

/-- The trailing window of `n` cells ending at index `i` of a column
(the window `pandas` rolling statistics read; out-of-range cells are `none`). -/
def smaWindow (n : ℕ) (xs : List (Option ℚ)) (i : ℕ) : List (Option ℚ) :=
  (List.range n).map fun k => xs.getD (i - k) none

/-- Arithmetic mean of the trailing `n`-cell window ending at `i` (meaningful
when the window is fully populated). -/
def sma_window_mean (n : ℕ) (xs : List (Option ℚ)) (i : ℕ) : ℚ :=
  ((smaWindow n xs i).map (fun o => o.getD 0)).sum / n

/-- Modelled from the spec: the simple-moving-average column the code obtains
from the external pandas_ta library (`df.ta.sma(length=n)`), whose source is
not in this repository.  Spec section 4.3: the SMA of `close` over the
trailing `n` observations, absent for the first `n - 1` rows (and at any row
whose window touches a missing value, matching rolling-mean NaN semantics). -/
def smaList (n : ℕ) (xs : List (Option ℚ)) : List (Option ℚ) :=
  (List.range xs.length).map fun i =>
    if n ≤ i + 1 ∧ (smaWindow n xs i).all Option.isSome then
      some (sma_window_mean n xs i)
    else none

/-- Modelled from the spec (section 4.3): true range
`max(high - low, |high - prev_close|, |low - prev_close|)`; absent at row 0
where no previous close exists, and at rows with missing inputs. -/
def trueRange (high low close : ℕ → Option ℚ) : ℕ → Option ℚ
  | 0 => none
  | i + 1 =>
    match high (i + 1), low (i + 1), close i with
    | some hi, some lo, some pc =>
      some (max (hi - lo) (max |hi - pc| |lo - pc|))
    | _, _, _ => none

/-- Modelled from the spec (section 4.3): ATR as the rolling mean of true
range over `n` rows (the spec allows "rolling mean (or smoothed average)");
absent until the window holds `n` defined true-range values, hence absent
for the first `n` rows. -/
def atr (n : ℕ) (high low close : ℕ → Option ℚ) (i : ℕ) : Option ℚ :=
  let w := (List.range n).map fun k => trueRange high low close (i - k)
  if n ≤ i ∧ w.all Option.isSome then
    some ((w.map (fun o => o.getD 0)).sum / n)
  else none

/-- The midpoint of high and low used by the Supertrend bands. -/
def hl2 (high low : ℕ → Option ℚ) (i : ℕ) : Option ℚ :=
  match high i, low i with
  | some hi, some lo => some ((hi + lo) / 2)
  | _, _ => none

/-- Raw upper band `midpoint(high, low) + multiplier * ATR` (spec 4.3). -/
def upperBand (n : ℕ) (mult : ℚ) (high low close : ℕ → Option ℚ) (i : ℕ) :
    Option ℚ :=
  match hl2 high low i, atr n high low close i with
  | some m, some a => some (m + mult * a)
  | _, _ => none

/-- Raw lower band `midpoint(high, low) - multiplier * ATR` (spec 4.3). -/
def lowerBand (n : ℕ) (mult : ℚ) (high low close : ℕ → Option ℚ) (i : ℕ) :
    Option ℚ :=
  match hl2 high low i, atr n high low close i with
  | some m, some a => some (m - mult * a)
  | _, _ => none

/-- Strictly-greater comparison with NaN semantics: any comparison against a
missing value is false. -/
def optGT (x y : Option ℚ) : Bool :=
  match x, y with
  | some a, some b => decide (b < a)
  | _, _ => false

/-- Strictly-less comparison with NaN semantics. -/
def optLT (x y : Option ℚ) : Bool :=
  match x, y with
  | some a, some b => decide (a < b)
  | _, _ => false

/-- The Supertrend per-row state: the signed direction and the current
(sticky-adjusted) lower and upper bands. -/
structure STS where
  dir : Int
  lb : Option ℚ
  ub : Option ℚ
deriving DecidableEq

/-- Modelled from the spec (section 4.3): the Supertrend recurrence the code
obtains from the external pandas_ta library.  Direction starts up (+1); at
each row the close crossing above the previous upper band flips to +1, below
the previous lower band flips to -1, otherwise the direction carries over and
the standard sticky adjustment applies: while the trend is up the lower band
never moves down, while the trend is down the upper band never moves up. -/
def stState (n : ℕ) (mult : ℚ) (high low close : ℕ → Option ℚ) : ℕ → STS
  | 0 => ⟨1, lowerBand n mult high low close 0, upperBand n mult high low close 0⟩
  | i + 1 =>
    let p := stState n mult high low close i
    let lraw := lowerBand n mult high low close (i + 1)
    let uraw := upperBand n mult high low close (i + 1)
    if optGT (close (i + 1)) p.ub then ⟨1, lraw, uraw⟩
    else if optLT (close (i + 1)) p.lb then ⟨-1, lraw, uraw⟩
    else
      ⟨p.dir,
        if 0 < p.dir ∧ optLT lraw p.lb = true then p.lb else lraw,
        if p.dir < 0 ∧ optGT uraw p.ub = true then p.ub else uraw⟩

/-- The Supertrend_Direction value at one row. -/
def stDir (n : ℕ) (mult : ℚ) (high low close : ℕ → Option ℚ) (i : ℕ) : Int :=
  (stState n mult high low close i).dir

/-- The Supertrend value at one row: the currently active band — the lower
band during an uptrend, the upper band during a downtrend. -/
def stTrend (n : ℕ) (mult : ℚ) (high low close : ℕ → Option ℚ) (i : ℕ) :
    Option ℚ :=
  let s := stState n mult high low close i
  if 0 < s.dir then s.lb else s.ub

/-- The DataFrame the pipeline passes around: the normalized candle rows (the
index plus the base OHLCV columns) and, in insertion order, the extra named
indicator columns appended to it. -/
structure CandleFrame where
  rows : List CRow
  extra : List (String × List (Option ℚ))
deriving DecidableEq

/-- The close column of a frame. -/
def closes (f : CandleFrame) : List (Option ℚ) := f.rows.map CRow.c

/-- The high column of a frame. -/
def highsF (f : CandleFrame) : List (Option ℚ) := f.rows.map CRow.h

/-- The low column of a frame. -/
def lowsF (f : CandleFrame) : List (Option ℚ) := f.rows.map CRow.l

/-- Read a column as a total function on row positions (`none` out of range). -/
def colFun (xs : List (Option ℚ)) : ℕ → Option ℚ := fun i => xs.getD i none

/-- `df[name] = col` on the extra columns: pandas replaces an existing column
of that name in place and otherwise appends it at the end. -/
def setCol (extra : List (String × List (Option ℚ))) (nm : String)
    (col : List (Option ℚ)) : List (String × List (Option ℚ)) :=
  if extra.any (fun p => p.1 == nm) then
    extra.map (fun p => if p.1 == nm then (nm, col) else p)
  else extra ++ [(nm, col)]

/-- The Supertrend column materialized over a frame's rows. -/
def supertrendTrendCol (n : ℕ) (mult : ℚ) (f : CandleFrame) :
    List (Option ℚ) :=
  (List.range f.rows.length).map fun i =>
    stTrend n mult (colFun (highsF f)) (colFun (lowsF f)) (colFun (closes f)) i

/-- The Supertrend_Direction column materialized over a frame's rows (the
integer direction carried as a numeric column value). -/
def supertrendDirCol (n : ℕ) (mult : ℚ) (f : CandleFrame) :
    List (Option ℚ) :=
  (List.range f.rows.length).map fun i =>
    some ((stDir n mult (colFun (highsF f)) (colFun (lowsF f))
      (colFun (closes f)) i : ℚ))

/-- The indicator settings read from configuration (src/Livechart.py lines
33-36, src/app.py lines 57-60). -/
structure IndicatorConfig where
  show_sma : Bool
  show_supertrend : Bool
  atr_period : ℕ
  atr_multiplier : ℚ

/-- `LiveChart.calculate_indicators` (src/Livechart.py lines 41-58) and the
identical inline block of src/app.py lines 62-75: when SMA is enabled append
`SMA20` and `SMA50` computed from the close column, and when Supertrend is
enabled assign `Supertrend` and `Supertrend_Direction` from the indicator
whose internal parametrized column names never leak into the frame. -/
def calculate_indicators (cfg : IndicatorConfig) (f : CandleFrame) :
    CandleFrame :=
  let f1 :=
    if cfg.show_sma then
      let e1 := setCol f.extra "SMA20" (smaList 20 (closes f))
      let e2 := setCol e1 "SMA50" (smaList 50 (closes f))
      { f with extra := e2 }
    else f
  if cfg.show_supertrend then
    let e3 := setCol f1.extra "Supertrend"
      (supertrendTrendCol cfg.atr_period cfg.atr_multiplier f1)
    let e4 := setCol e3 "Supertrend_Direction"
      (supertrendDirCol cfg.atr_period cfg.atr_multiplier f1)
    { f1 with extra := e4 }
  else f1

/-- The mutable state of the live-chart loop: `self.df`
(src/Livechart.py lines 38-39). -/
structure ChartState where
  df : CandleFrame
deriving DecidableEq

/-- One tick of `LiveChart.update_chart` (src/Livechart.py lines 60-70): fetch
new data; when the fetch succeeded, replace `self.df` with it, otherwise keep
the previous frame; then recompute indicators on `self.df` and hand that frame
to the renderer.  Returns the new state and the frame handed to display. -/
def update_chart (cfg : IndicatorConfig) (st : ChartState)
    (fetchResult : Option CandleFrame) : ChartState × CandleFrame :=
  let base := fetchResult.getD st.df
  let annotated := calculate_indicators cfg base
  (⟨annotated⟩, annotated)

/-- C10: with both indicator flags disabled, `calculate_indicators` is the
identity on the frame — same rows, same index, same columns, nothing added —
for every value of the ATR parameters. -/
theorem c10_annotate_identity (f : CandleFrame) (n : ℕ) (m : ℚ) :
    calculate_indicators ⟨false, false, n, m⟩ f = f := rfl

/-- A one-row frame standing for the series fetched on some earlier tick. -/
def f0Frame : CandleFrame :=
  ⟨[⟨some 1, some 1, some 1, some 1, some 1, some 1⟩], []⟩

/-- Indicator configuration with both indicators disabled. -/
def cfgOff : IndicatorConfig := ⟨false, false, 10, 3⟩

/-- C9 counterexample: on a tick whose fetch fails, `update_chart` hands the
previous tick's series to the display step — the rows shown are exactly the
previously stored rows, and the displayed frame depends on the previous
state, so the series is not built fresh from that tick's fetch. -/
theorem c9_counterexample :
    ((update_chart cfgOff ⟨f0Frame⟩ none).2).rows = f0Frame.rows ∧
    f0Frame.rows ≠ [] ∧
    (update_chart cfgOff ⟨f0Frame⟩ none).2
      ≠ (update_chart cfgOff ⟨⟨[], []⟩⟩ none).2 :=
  ⟨rfl, by decide, by decide⟩

/-- C9 amended: on a tick whose fetch succeeds, the stored and displayed frame
is wholly replaced by the fresh fetch result annotated with indicators,
independent of the previous state; on a tick whose fetch fails, the previous
frame is retained and re-annotated for display. -/
theorem c9_replace_on_success (cfg : IndicatorConfig) (st : ChartState)
    (d : CandleFrame) :
    (update_chart cfg st (some d)).2 = calculate_indicators cfg d ∧
    (update_chart cfg st (some d)).1.df = calculate_indicators cfg d ∧
    (update_chart cfg st none).2 = calculate_indicators cfg st.df :=
  ⟨rfl, rfl, rfl⟩

/-- When no existing column bears the name, `setCol` appends the column. -/
theorem setCol_append (extra : List (String × List (Option ℚ)))
    (nm : String) (col : List (Option ℚ)) (h : ∀ p ∈ extra, p.1 ≠ nm) :
    setCol extra nm col = extra ++ [(nm, col)] := by
  have hany : extra.any (fun p => p.1 == nm) = false := by
    simp only [List.any_eq_false]
    intro p hp
    simpa using h p hp
  simp [setCol, hany]

/-- The column names after `setCol` with a fresh name: the old names with the
new name appended at the end. -/
theorem map_fst_setCol (extra : List (String × List (Option ℚ)))
    (nm : String) (col : List (Option ℚ)) (h : ∀ p ∈ extra, p.1 ≠ nm) :
    (setCol extra nm col).map Prod.fst = extra.map Prod.fst ++ [nm] := by
  rw [setCol_append extra nm col h]
  simp

/-- A name absent from the columns stays absent under `setCol` with a
different name. -/
theorem freshName_setCol (extra : List (String × List (Option ℚ)))
    (nm nmSet : String) (col : List (Option ℚ))
    (h : ∀ p ∈ extra, p.1 ≠ nm) (hne : nmSet ≠ nm) :
    ∀ p ∈ setCol extra nmSet col, p.1 ≠ nm := by
  intro p hp
  unfold setCol at hp
  by_cases hc : extra.any (fun q => q.1 == nmSet) = true
  · rw [if_pos hc] at hp
    obtain ⟨q, hq, hpq⟩ := List.mem_map.mp hp
    subst hpq
    by_cases hq1 : (q.1 == nmSet) = true
    · rw [if_pos hq1]; exact hne
    · rw [if_neg hq1]; exact h q hq
  · rw [if_neg hc] at hp
    rcases List.mem_append.mp hp with hp | hp
    · exact h p hp
    · rw [List.mem_singleton.mp hp]; exact hne

/-- C7: for every input frame (with the indicator names not already present)
and every configuration, `calculate_indicators` leaves the candle rows — the
timestamp index and the base OHLCV columns — unchanged and only appends
columns, whose names are exactly SMA20, SMA50, Supertrend and
Supertrend_Direction for the enabled indicator groups, independent of the
values of `atr_period` and `atr_multiplier`. -/
theorem c7_frame_effect (f : CandleFrame) (cfg : IndicatorConfig)
    (hfresh : ∀ p ∈ f.extra,
      p.1 ≠ "SMA20" ∧ p.1 ≠ "SMA50" ∧ p.1 ≠ "Supertrend" ∧
        p.1 ≠ "Supertrend_Direction") :
    (calculate_indicators cfg f).rows = f.rows ∧
    (calculate_indicators cfg f).extra.map Prod.fst
      = f.extra.map Prod.fst
        ++ (if cfg.show_sma then ["SMA20", "SMA50"] else [])
        ++ (if cfg.show_supertrend then
            ["Supertrend", "Supertrend_Direction"] else []) := by
  obtain ⟨sma, st, n, m⟩ := cfg
  have h20 : ∀ p ∈ f.extra, p.1 ≠ "SMA20" := fun p hp => (hfresh p hp).1
  have h50 : ∀ p ∈ f.extra, p.1 ≠ "SMA50" := fun p hp => (hfresh p hp).2.1
  have hst : ∀ p ∈ f.extra, p.1 ≠ "Supertrend" :=
    fun p hp => (hfresh p hp).2.2.1
  have hsd : ∀ p ∈ f.extra, p.1 ≠ "Supertrend_Direction" :=
    fun p hp => (hfresh p hp).2.2.2
  cases sma <;> cases st
  · exact ⟨rfl, by simp [calculate_indicators]⟩
  · refine ⟨rfl, ?_⟩
    show (List.map Prod.fst
      (setCol (setCol f.extra "Supertrend" _) "Supertrend_Direction" _)) = _
    rw [map_fst_setCol _ _ _
        (freshName_setCol _ _ _ _ hsd (by decide)),
      map_fst_setCol _ _ _ hst]
    simp
  · refine ⟨rfl, ?_⟩
    show (List.map Prod.fst
      (setCol (setCol f.extra "SMA20" _) "SMA50" _)) = _
    rw [map_fst_setCol _ _ _
        (freshName_setCol _ _ _ _ h50 (by decide)),
      map_fst_setCol _ _ _ h20]
    simp
  · refine ⟨rfl, ?_⟩
    show (List.map Prod.fst
      (setCol (setCol (setCol (setCol f.extra "SMA20" _) "SMA50" _)
        "Supertrend" _) "Supertrend_Direction" _)) = _
    rw [map_fst_setCol _ _ _
        (freshName_setCol _ _ _ _
          (freshName_setCol _ _ _ _
            (freshName_setCol _ _ _ _ hsd (by decide)) (by decide))
          (by decide)),
      map_fst_setCol _ _ _
        (freshName_setCol _ _ _ _
          (freshName_setCol _ _ _ _ hst (by decide)) (by decide)),
      map_fst_setCol _ _ _
        (freshName_setCol _ _ _ _ h50 (by decide)),
      map_fst_setCol _ _ _ h20]
    simp

/-- Empty-extra one-row fixture frame for the frame-effect witness. -/
def fW : CandleFrame :=
  ⟨[⟨some 1, some 2, some 3, some 1, some 2, some 4⟩], []⟩

/-- Fixture configuration with both indicators enabled. -/
def cfgW : IndicatorConfig := ⟨true, true, 2, 3⟩

/-- C7 witness: the frame-effect theorem applied to a concrete one-row frame
with both indicators enabled. -/
theorem c7_frame_effect_witness :
    (∀ p ∈ fW.extra,
      p.1 ≠ "SMA20" ∧ p.1 ≠ "SMA50" ∧ p.1 ≠ "Supertrend" ∧
        p.1 ≠ "Supertrend_Direction") ∧
    ((calculate_indicators cfgW fW).rows = fW.rows ∧
      (calculate_indicators cfgW fW).extra.map Prod.fst
        = fW.extra.map Prod.fst
          ++ (if cfgW.show_sma then ["SMA20", "SMA50"] else [])
          ++ (if cfgW.show_supertrend then
              ["Supertrend", "Supertrend_Direction"] else [])) :=
  ⟨by simp [fW], c7_frame_effect fW cfgW (by simp [fW])⟩

/-- The entry of an SMA column at an in-range row: the window mean when the
window is full and fully populated, absent otherwise. -/
theorem smaList_getElem? (n : ℕ) (xs : List (Option ℚ)) (i : ℕ)
    (hi : i < xs.length) :
    (smaList n xs)[i]?
      = some (if n ≤ i + 1 ∧ (smaWindow n xs i).all Option.isSome then
          some (sma_window_mean n xs i)
        else none) := by
  unfold smaList
  rw [List.getElem?_map, List.getElem?_range hi]
  rfl

/-- When every cell of the column is present, every trailing window is fully
populated. -/
theorem smaWindow_all_isSome (n : ℕ) (xs : List (Option ℚ)) (i : ℕ)
    (hi : i < xs.length) (hall : ∀ x ∈ xs, x.isSome = true) :
    (smaWindow n xs i).all Option.isSome = true := by
  simp only [smaWindow, List.all_eq_true]
  intro o ho
  obtain ⟨k, hk, rfl⟩ := List.mem_map.mp ho
  have hik : i - k < xs.length := lt_of_le_of_lt (Nat.sub_le i k) hi
  rw [List.getD_eq_getElem xs none hik]
  exact hall _ (List.getElem_mem hik)

/-- The property C5 asserts of a 60-row series: the SMA20 column is absent on
the first 19 rows and equals the trailing-20 close mean from row 20 (1-based)
onward, and the SMA50 column is absent on the first 49 rows and fully
populated (with the trailing-50 close mean) from row 50 onward. -/
def C5Concl (rows : List CRow) : Prop :=
  (smaList 20 (rows.map CRow.c)).length = 60 ∧
  (smaList 50 (rows.map CRow.c)).length = 60 ∧
  (∀ i : ℕ, i < 19 → (smaList 20 (rows.map CRow.c))[i]? = some none) ∧
  (∀ i : ℕ, 19 ≤ i → i < 60 →
    (smaList 20 (rows.map CRow.c))[i]?
      = some (some (sma_window_mean 20 (rows.map CRow.c) i))) ∧
  (∀ i : ℕ, i < 49 → (smaList 50 (rows.map CRow.c))[i]? = some none) ∧
  (∀ i : ℕ, 49 ≤ i → i < 60 →
    (smaList 50 (rows.map CRow.c))[i]?
      = some (some (sma_window_mean 50 (rows.map CRow.c) i)))

/-- C5: on every series of 60 rows with all closes present, annotating with
SMA enabled yields an SMA20 column absent before row 20 and equal to the
arithmetic mean of the trailing 20 closes from row 20 onward, and an SMA50
column absent before row 50 and fully populated from row 50 onward. -/
theorem c5_sma_columns (rows : List CRow) (hlen : rows.length = 60)
    (hc : ∀ r ∈ rows, (CRow.c r).isSome = true) : C5Concl rows := by
  have hxs : (rows.map CRow.c).length = 60 := by simp [hlen]
  have hall : ∀ x ∈ rows.map CRow.c, x.isSome = true := by
    intro x hx
    obtain ⟨r, hr, rfl⟩ := List.mem_map.mp hx
    exact hc r hr
  refine ⟨by simp [smaList, hxs], by simp [smaList, hxs], ?_, ?_, ?_, ?_⟩
  · intro i hi
    have h60 : i < (rows.map CRow.c).length := by omega
    rw [smaList_getElem? 20 _ i h60]
    have hno : ¬ (20 ≤ i + 1) := by omega
    simp [hno]
  · intro i h19 h60'
    have h60 : i < (rows.map CRow.c).length := by omega
    rw [smaList_getElem? 20 _ i h60]
    have h1 : 20 ≤ i + 1 := by omega
    have h2 := smaWindow_all_isSome 20 _ i h60 hall
    simp [h1, h2]
  · intro i hi
    have h60 : i < (rows.map CRow.c).length := by omega
    rw [smaList_getElem? 50 _ i h60]
    have hno : ¬ (50 ≤ i + 1) := by omega
    simp [hno]
  · intro i h49 h60'
    have h60 : i < (rows.map CRow.c).length := by omega
    rw [smaList_getElem? 50 _ i h60]
    have h1 : 50 ≤ i + 1 := by omega
    have h2 := smaWindow_all_isSome 50 _ i h60 hall
    simp [h1, h2]

/-- A concrete 60-row series with fully populated closes. -/
def rows60 : List CRow :=
  (List.range 60).map fun i =>
    ⟨some (i : ℚ), some (i : ℚ), some ((i : ℚ) + 1), some (i : ℚ),
      some (i : ℚ), some 1⟩

/-- C5 witness: the SMA-column theorem applied to the concrete 60-row
series. -/
theorem c5_sma_columns_witness :
    (rows60.length = 60 ∧ ∀ r ∈ rows60, (CRow.c r).isSome = true) ∧
    C5Concl rows60 :=
  ⟨⟨by decide, by decide⟩,
    c5_sma_columns rows60 (by decide) (by decide)⟩

section Supertrend

variable (n : ℕ) (mult : ℚ) (high low close : ℕ → Option ℚ)

/-- Step equation of the Supertrend recurrence: close crossing above the
previous upper band. -/
theorem stState_succ_gt (i : ℕ)
    (h1 : optGT (close (i + 1)) (stState n mult high low close i).ub = true) :
    stState n mult high low close (i + 1)
      = ⟨1, lowerBand n mult high low close (i + 1),
          upperBand n mult high low close (i + 1)⟩ := by
  simp only [stState]
  rw [if_pos h1]

/-- Step equation of the Supertrend recurrence: close crossing below the
previous lower band. -/
theorem stState_succ_lt (i : ℕ)
    (h1 : optGT (close (i + 1)) (stState n mult high low close i).ub = false)
    (h2 : optLT (close (i + 1)) (stState n mult high low close i).lb = true) :
    stState n mult high low close (i + 1)
      = ⟨-1, lowerBand n mult high low close (i + 1),
          upperBand n mult high low close (i + 1)⟩ := by
  simp only [stState, h1, Bool.false_eq_true, if_false]
  rw [if_pos h2]

/-- Step equation of the Supertrend recurrence: no cross — the direction
carries over and the sticky band adjustment applies. -/
theorem stState_succ_carry (i : ℕ)
    (h1 : optGT (close (i + 1)) (stState n mult high low close i).ub = false)
    (h2 : optLT (close (i + 1)) (stState n mult high low close i).lb = false) :
    stState n mult high low close (i + 1)
      = ⟨(stState n mult high low close i).dir,
          if 0 < (stState n mult high low close i).dir ∧
              optLT (lowerBand n mult high low close (i + 1))
                (stState n mult high low close i).lb = true then
            (stState n mult high low close i).lb
          else lowerBand n mult high low close (i + 1),
          if (stState n mult high low close i).dir < 0 ∧
              optGT (upperBand n mult high low close (i + 1))
                (stState n mult high low close i).ub = true then
            (stState n mult high low close i).ub
          else upperBand n mult high low close (i + 1)⟩ := by
  simp only [stState, h1, h2, Bool.false_eq_true, if_false]

/-- The direction only ever takes the two values +1 and -1. -/
theorem stDir_pm : ∀ i, stDir n mult high low close i = 1 ∨
    stDir n mult high low close i = -1 := by
  intro i
  induction i with
  | zero => left; rfl
  | succ i ih =>
    unfold stDir at ih ⊢
    cases h1 : optGT (close (i + 1)) (stState n mult high low close i).ub with
    | true => rw [stState_succ_gt n mult high low close i h1]; left; rfl
    | false =>
      cases h2 : optLT (close (i + 1)) (stState n mult high low close i).lb with
      | true =>
        rw [stState_succ_lt n mult high low close i h1 h2]; right; rfl
      | false =>
        rw [stState_succ_carry n mult high low close i h1 h2]; exact ih

/-- A true range value is never negative. -/
theorem tr_nonneg (j : ℕ) (t : ℚ)
    (h : trueRange high low close j = some t) : 0 ≤ t := by
  cases j with
  | zero => simp [trueRange] at h
  | succ j =>
    simp only [trueRange] at h
    cases hh : high (j + 1) with
    | none => rw [hh] at h; simp at h
    | some hi =>
      cases hl : low (j + 1) with
      | none => rw [hh, hl] at h; simp at h
      | some lo =>
        cases hc : close j with
        | none => rw [hh, hl, hc] at h; simp at h
        | some pc =>
          rw [hh, hl, hc] at h
          have ht := Option.some.inj h
          have : (0 : ℚ) ≤ max (hi - lo) (max |hi - pc| |lo - pc|) :=
            le_trans (abs_nonneg (hi - pc))
              (le_trans (le_max_left _ _) (le_max_right _ _))
          rw [ht] at this
          exact this

/-- An ATR value is never negative. -/
theorem atr_nonneg (i : ℕ) (a : ℚ)
    (h : atr n high low close i = some a) : 0 ≤ a := by
  simp only [atr] at h
  split at h
  · have ha := Option.some.inj h
    rw [← ha]
    apply div_nonneg
    · apply List.sum_nonneg
      intro x hx
      obtain ⟨o, ho, rfl⟩ := List.mem_map.mp hx
      obtain ⟨k, _, rfl⟩ := List.mem_map.mp ho
      cases htr : trueRange high low close (i - k) with
      | none => simp [htr]
      | some t =>
        simpa [htr] using tr_nonneg high low close (i - k) t htr
    · exact Nat.cast_nonneg n
  · simp at h

/-- On a synthetic series with `high = low = close` all present, a defined
lower band never exceeds the close of its own row. -/
theorem lowerBand_le (f : ℕ → ℚ) (hh : high = close) (hl : low = close)
    (hc : ∀ i, close i = some (f i)) (hm : 0 ≤ mult) (i : ℕ) (b : ℚ)
    (hb : lowerBand n mult high low close i = some b) : b ≤ f i := by
  unfold lowerBand at hb
  have hhl2 : hl2 high low i = some (f i) := by
    unfold hl2
    rw [hh, hl, hc i]
    show some ((f i + f i) / 2) = some (f i)
    have h2 : (f i + f i) / 2 = f i := by ring
    rw [h2]
  rw [hhl2] at hb
  cases ha : atr n high low close i with
  | none => rw [ha] at hb; simp at hb
  | some a =>
    rw [ha] at hb
    have hba := Option.some.inj hb
    have hma : 0 ≤ mult * a :=
      mul_nonneg hm (atr_nonneg n high low close i a ha)
    rw [← hba]
    linarith

/-- On a synthetic monotonically rising series the Supertrend state always
points up and its lower band stays at or below the current close. -/
theorem stState_rising (f : ℕ → ℚ) (hh : high = close) (hl : low = close)
    (hc : ∀ i, close i = some (f i)) (hmono : StrictMono f) (hm : 0 ≤ mult) :
    ∀ i, (stState n mult high low close i).dir = 1 ∧
      ∀ b, (stState n mult high low close i).lb = some b → b ≤ f i := by
  intro i
  induction i with
  | zero =>
    exact ⟨rfl, fun b hb => lowerBand_le n mult high low close f hh hl hc hm 0 b hb⟩
  | succ i ih =>
    obtain ⟨hdir, hlb⟩ := ih
    cases h1 : optGT (close (i + 1)) (stState n mult high low close i).ub with
    | true =>
      rw [stState_succ_gt n mult high low close i h1]
      exact ⟨rfl, fun b hb =>
        lowerBand_le n mult high low close f hh hl hc hm (i + 1) b hb⟩
    | false =>
      cases h2 : optLT (close (i + 1)) (stState n mult high low close i).lb with
      | true =>
        exfalso
        rw [hc (i + 1)] at h2
        cases hpl : (stState n mult high low close i).lb with
        | none => rw [hpl] at h2; simp [optLT] at h2
        | some b =>
          rw [hpl] at h2
          simp only [optLT, decide_eq_true_eq] at h2
          have hble : b ≤ f i := hlb b hpl
          have : f i < f (i + 1) := hmono (Nat.lt_succ_self i)
          linarith
      | false =>
        rw [stState_succ_carry n mult high low close i h1 h2]
        refine ⟨hdir, ?_⟩
        intro b hb
        simp only at hb
        split at hb
        · have := hlb b hb
          have hle : f i ≤ f (i + 1) := (hmono (Nat.lt_succ_self i)).le
          linarith
        · exact lowerBand_le n mult high low close f hh hl hc hm (i + 1) b hb

end Supertrend

/-- C6: the Supertrend direction column only takes the two values +1 and -1
(stated both for the materialized `Supertrend_Direction` column and for the
underlying recurrence); the direction changes between consecutive rows only
when the close crosses the previously active band (the Supertrend value of
the previous row — the upper band in a downtrend, the lower band in an
uptrend); and on a synthetic monotonically rising price series the direction
is the up value +1 on every row from `atr_period` onward. -/
theorem c6_supertrend_direction (n : ℕ) (mult : ℚ)
    (high low close : ℕ → Option ℚ) (_hn : 1 ≤ n) :
    (∀ fr : CandleFrame, ∀ i < fr.rows.length,
      (supertrendDirCol n mult fr)[i]? = some (some 1) ∨
      (supertrendDirCol n mult fr)[i]? = some (some (-1))) ∧
    (∀ i, stDir n mult high low close i = 1 ∨
      stDir n mult high low close i = -1) ∧
    (∀ i, stDir n mult high low close (i + 1) ≠ stDir n mult high low close i →
      (stDir n mult high low close i = -1 ∧
        optGT (close (i + 1)) (stTrend n mult high low close i) = true) ∨
      (stDir n mult high low close i = 1 ∧
        optLT (close (i + 1)) (stTrend n mult high low close i) = true)) ∧
    (∀ f : ℕ → ℚ, high = close → low = close → (∀ i, close i = some (f i)) →
      StrictMono f → 0 ≤ mult →
      ∀ i, n ≤ i → stDir n mult high low close i = 1) := by
  refine ⟨?_, stDir_pm n mult high low close, ?_, ?_⟩
  · intro fr i hi
    have hcol : (supertrendDirCol n mult fr)[i]?
        = some (some ((stDir n mult (colFun (highsF fr)) (colFun (lowsF fr))
            (colFun (closes fr)) i : ℤ) : ℚ)) := by
      unfold supertrendDirCol
      rw [List.getElem?_map, List.getElem?_range hi]
      rfl
    rcases stDir_pm n mult (colFun (highsF fr)) (colFun (lowsF fr))
        (colFun (closes fr)) i with hd | hd
    · left; rw [hcol, hd]; norm_num
    · right; rw [hcol, hd]; norm_num
  · intro i hch
    cases h1 : optGT (close (i + 1)) (stState n mult high low close i).ub with
    | true =>
      left
      have hdir1 : stDir n mult high low close (i + 1) = 1 := by
        unfold stDir
        rw [stState_succ_gt n mult high low close i h1]
      have hne : stDir n mult high low close i ≠ 1 := by
        intro h
        exact hch (hdir1.trans h.symm)
      have hm1 : stDir n mult high low close i = -1 :=
        (stDir_pm n mult high low close i).resolve_left hne
      refine ⟨hm1, ?_⟩
      have hnpos : ¬ (0 < (stState n mult high low close i).dir) := by
        unfold stDir at hm1
        rw [hm1]
        decide
      unfold stTrend
      rw [if_neg hnpos]
      exact h1
    | false =>
      cases h2 : optLT (close (i + 1)) (stState n mult high low close i).lb with
      | true =>
        right
        have hdir1 : stDir n mult high low close (i + 1) = -1 := by
          unfold stDir
          rw [stState_succ_lt n mult high low close i h1 h2]
        have hne : stDir n mult high low close i ≠ -1 := by
          intro h
          exact hch (hdir1.trans h.symm)
        have hp1 : stDir n mult high low close i = 1 :=
          (stDir_pm n mult high low close i).resolve_right hne
        refine ⟨hp1, ?_⟩
        have hpos : 0 < (stState n mult high low close i).dir := by
          unfold stDir at hp1
          rw [hp1]
          decide
        unfold stTrend
        rw [if_pos hpos]
        exact h2
      | false =>
        exfalso
        apply hch
        unfold stDir
        rw [stState_succ_carry n mult high low close i h1 h2]
  · intro f hh hl hc hmono hm i _
    exact (stState_rising n mult high low close f hh hl hc hmono hm i).1

/-- The synthetic strictly rising close column used by the C6 witness. -/
def gFun : ℕ → Option ℚ := fun i => some (i : ℚ)

/-- C6 witness: the direction theorem applied with atr_period 2 and
multiplier 1 to the strictly rising synthetic series, evaluated at row 5. -/
theorem c6_supertrend_direction_witness :
    (1 ≤ 2) ∧ stDir 2 1 gFun gFun gFun 5 = 1 :=
  ⟨by decide,
    (c6_supertrend_direction 2 1 gFun gFun gFun (by decide)).2.2.2
      (fun i => (i : ℚ)) rfl rfl (fun _ => rfl)
      (fun _ _ hab => Nat.cast_lt.mpr hab) (by norm_num) 5 (by decide)⟩

end LiveChart
